import Mathlib

/-!
Shallow embedding of the cache/sync core of the vscode-linear-extension
repository: the `CacheService` (src/services/cache/cacheService.ts) and the
relevant parts of `LinearService` (src/services/linearService.ts).
-/

set_option maxRecDepth 4000

namespace LinearExt

/-- A JavaScript error value as observed by `withRetry`:
whether it is an instance of `LinearError` from the SDK, and its message. -/
structure JsError where
  isLinearError : Bool
  message : String
  deriving DecidableEq, Repr

/-- Whether the list `pat` occurs as a contiguous sublist of `s`
(the semantics of JavaScript `String.prototype.includes`). -/
def hasSub (pat : List Char) : List Char → Bool
  | [] => pat.isEmpty
  | c :: rest => pat.isPrefixOf (c :: rest) || hasSub pat rest

/-- The classification test at linearService.ts:64-67:
`error instanceof LinearError && error.message.includes("rate limit")`. -/
def isRateLimitError (e : JsError) : Bool :=
  e.isLinearError && hasSub "rate limit".toList e.message.toList

/-- `RETRY_COUNT` (linearService.ts:43). -/
def RETRY_COUNT : Nat := 3

/-- `RETRY_DELAY` in milliseconds (linearService.ts:44). -/
def RETRY_DELAY : Nat := 1000

/-- Observable trace of one `withRetry` execution: the final outcome, how many
times the wrapped operation was called, and the list of sleeps performed (in
order, milliseconds). -/
structure RetryTrace (α : Type) where
  result : Except JsError α
  calls : Nat
  waits : List Nat
  deriving Repr

/-- The loop body of `withRetry` (linearService.ts:59-79), recursing on the
number of remaining loop iterations. `op i` is the outcome of the
`i`-th (0-based) call of `operation`; `lastError` models the `lastError`
variable. When an attempt fails with a rate-limit-classified error, the code
sleeps `RETRY_DELAY * 2 ^ i` and continues; any other error is rethrown at
once; when the loop ends, `lastError` is thrown (linearService.ts:80). -/
def withRetryFrom (op : Nat → Except JsError α) (lastError : JsError) :
    Nat → Nat → RetryTrace α
  | _, 0 => ⟨.error lastError, 0, []⟩
  | i, r + 1 =>
    match op i with
    | .ok v => ⟨.ok v, 1, []⟩
    | .error e =>
      if isRateLimitError e then
        let rest := withRetryFrom op e (i + 1) r
        ⟨rest.result, rest.calls + 1, RETRY_DELAY * 2 ^ i :: rest.waits⟩
      else ⟨.error e, 1, []⟩

/-- `withRetry` (linearService.ts:57-81): run the loop for `RETRY_COUNT`
iterations starting at attempt 0. The initial `lastError` models the
`null` initialisation; it is unreachable because `RETRY_COUNT > 0`. -/
def withRetry (op : Nat → Except JsError α) : RetryTrace α :=
  withRetryFrom op ⟨false, ""⟩ 0 RETRY_COUNT

/-- An issue record, with the fields that feed the derived search index
(linearService.ts:83-100). `searchText` models the `_searchText` field of
`LocalIssue` (linearService.ts:12-14). -/
structure Issue where
  id : String
  title : String
  description : String
  identifier : String
  assigneeName : String
  teamName : String
  labelNames : List String
  stateName : String
  searchText : Option String := none
  deriving DecidableEq, Repr

/-- JavaScript `Array.prototype.join(" ")`, written so that it reduces inside
the kernel. -/
def joinSpace : List String → String
  | [] => ""
  | [s] => s
  | s :: rest => s ++ " " ++ joinSpace rest

/-- JavaScript `String.prototype.toLowerCase`, computed on the character list
so that it reduces inside the kernel. -/
def toLowerStr (s : String) : String := String.mk (s.toList.map Char.toLower)

/-- `createSearchIndex` (linearService.ts:83-100): the lower-cased,
space-joined concatenation of the searchable fields, with empty components
dropped by `filter(Boolean)`. -/
def createSearchIndex (i : Issue) : Issue :=
  { i with
    searchText := some (toLowerStr (joinSpace
      (([i.title, i.description, i.identifier, i.assigneeName, i.teamName,
         joinSpace i.labelNames, i.stateName]).filter
        (fun s => !(s == ""))))) }

/-- A JavaScript value as stored in the cache's `Map<string, CacheItem<any>>`:
`null`, an array of issues, or some other (opaque) object. -/
inductive JsVal where
  | vnull : JsVal
  | varr : List Issue → JsVal
  | vother : String → JsVal
  deriving DecidableEq, Repr

/-- `CacheItem<T>` (cacheService.ts:3-7): the cached data, the `Date.now()`
timestamp recorded by `set`, and the optional last-update marker. -/
structure CacheItem where
  data : JsVal
  timestamp : Int
  lastUpdateId : Option String := none
  deriving DecidableEq, Repr

/-- The state of a `CacheService` instance (cacheService.ts:9-21): the
in-memory map (as an association list, first binding wins on lookup) and the
durable `globalState` entry under the key `linearCache` (`none` when the
storage holds no such entry). -/
structure CacheService where
  cache : List (String × CacheItem)
  storage : Option (List (String × CacheItem))
  deriving DecidableEq, Repr

/-- `Map.prototype.set` on an association list: replace the first binding of
`k` if present, else append. -/
def alSet (k : String) (v : CacheItem) :
    List (String × CacheItem) → List (String × CacheItem)
  | [] => [(k, v)]
  | e :: rest => if e.1 = k then (k, v) :: rest else e :: alSet k v rest

/-- `PERSIST_KEYS` (cacheService.ts:12-17). -/
def PERSIST_KEYS : List String := ["issues", "teams", "workflowStates", "projects"]

/-- JavaScript `String.prototype.startsWith`, computed on the character
lists so that it reduces inside the kernel. -/
def startsWithStr (s p : String) : Bool :=
  p.toList.isPrefixOf s.toList

/-- `shouldPersist` (cacheService.ts:111-113): whether the key starts with one
of the persisted prefixes. -/
def shouldPersist (key : String) : Bool :=
  PERSIST_KEYS.any (fun p => startsWithStr key p)

/-- The default TTL of `get`, 5 minutes in milliseconds (cacheService.ts:30). -/
def DEFAULT_TTL : Int := 5 * 60 * 1000

namespace CacheService

/-- `persistCache` (cacheService.ts:118-128): snapshot every entry whose key
is persisted into the durable `linearCache` record. -/
def persistCache (s : CacheService) : CacheService :=
  { s with storage := some (s.cache.filter (fun e => shouldPersist e.1)) }

/-- `get` (cacheService.ts:30-40): `none` models the `null` return. When the
entry exists but `ttl > 0 && now - item.timestamp > ttl`, the entry is deleted
and `null` returned; otherwise the stored data is returned unchanged. The
returned `CacheService` is the state after the read. -/
def get (s : CacheService) (key : String) (ttl : Int) (now : Int) :
    Option JsVal × CacheService :=
  match s.cache.lookup key with
  | none => (none, s)
  | some item =>
    if 0 < ttl ∧ ttl < now - item.timestamp then
      (none, { s with cache := s.cache.filter (fun e => !(e.1 == key)) })
    else (some item.data, s)

/-- `set` (cacheService.ts:48-59): overwrite the entry with a fresh timestamp,
then persist the snapshot when the key is persisted. -/
def set (s : CacheService) (key : String) (data : JsVal) (now : Int)
    (lastUpdateId : Option String) : CacheService :=
  let s1 : CacheService := { s with cache := alSet key ⟨data, now, lastUpdateId⟩ s.cache }
  if shouldPersist key then s1.persistCache else s1

/-- `invalidateByPrefix` (cacheService.ts:65-74): delete every key that starts
with the given string, persisting if any deleted key was persisted. -/
def invalidateStartingWith (s : CacheService) (p : String) : CacheService :=
  let keysToDelete := (s.cache.map (fun e => e.1)).filter (fun k => startsWithStr k p)
  let s1 : CacheService :=
    { s with cache := s.cache.filter (fun e => !(keysToDelete.contains e.1)) }
  if keysToDelete.any shouldPersist then s1.persistCache else s1

/-- `delete` (cacheService.ts:80-86). -/
def delete (s : CacheService) (key : String) : CacheService :=
  let s1 : CacheService := { s with cache := s.cache.filter (fun e => !(e.1 == key)) }
  if shouldPersist key then s1.persistCache else s1

/-- `clear` (cacheService.ts:91-94). -/
def clear (s : CacheService) : CacheService :=
  (({ s with cache := [] } : CacheService)).persistCache

/-- `getLastUpdateId` (cacheService.ts:101-104). -/
def getLastUpdateId (s : CacheService) (key : String) : Option String :=
  (s.cache.lookup key).bind (fun i => i.lastUpdateId)

/-- The constructor plus `loadPersistedCache` (cacheService.ts:19-22 and
133-148): a fresh instance over the given durable storage starts with an empty
map and then `Map.set`s every persisted entry into it. -/
def fresh (storage : Option (List (String × CacheItem))) : CacheService :=
  { cache := (storage.getD []).foldl (fun m e => alSet e.1 e.2 m) []
    storage := storage }

/-- The JavaScript-observable result of `get`: the absent case and the `null`
return collapse to the same `null` value (`T | null`). -/
def getJs (s : CacheService) (key : String) (ttl : Int) (now : Int) : JsVal :=
  ((s.get key ttl now).1).getD JsVal.vnull

end CacheService

/-- The error thrown at linearService.ts:240:
`new Error("Failed to fetch issues: " + error)` — a plain `Error`, not a
`LinearError`, whose message embeds the underlying failure. -/
def wrapFetchError (e : JsError) : JsError :=
  ⟨false, "Failed to fetch issues: " ++ e.message⟩

/-- The cache-hit validity check at linearService.ts:123:
`cached && Array.isArray(cached) && cached.length > 0` (a `null` read, a
non-array value and an empty array are all invalid). -/
def isValidCacheVal : Option JsVal → Bool
  | some (JsVal.varr l) => decide (0 < l.length)
  | _ => false

/-- The issues held by a valid cached value (`cached!` at
linearService.ts:143 and 242). -/
def cachedList : Option JsVal → List Issue
  | some (JsVal.varr l) => l
  | _ => []

/-- A rendering of `new Date(now).toISOString()` used as the sync marker. -/
def isoTime (now : Int) : String := toString now

/-- The cache key of an issue list (linearService.ts:114-118):
`issues:` followed by the serialized filter criteria. -/
def issuesCacheKey (filterKey : String) : String := "issues:" ++ filterKey

/-- The cache key of a single issue's details (linearService.ts:459). -/
def issueDetailKey (issueId : String) : String := "issueDetail:" ++ issueId

/-- Observable outcome of one `getIssues` call. -/
structure GetIssuesRes where
  result : Except JsError (List Issue)
  state : CacheService
  backgroundScheduled : Bool

/-- `getIssues` (linearService.ts:109-244) as a function of the cache state,
the cache key, the clock, and the outcome `fetched` of the retried remote
fetch. On a valid cache hit the cached issues are returned at once and a
background delta update is scheduled (`backgroundScheduled`). Otherwise the
fetch outcome decides: on success the indexed issues are stored and returned;
on failure the code rechecks `isValidCache` (linearService.ts:239) and either
returns the cached issues or throws the wrapped error. -/
def getIssues (s : CacheService) (cacheKey : String) (now : Int)
    (fetched : Except JsError (List Issue)) : GetIssuesRes :=
  let read := s.get cacheKey DEFAULT_TTL now
  let cached := read.1
  let s1 := read.2
  if isValidCacheVal cached then
    ⟨.ok (cachedList cached), s1, true⟩
  else
    match fetched with
    | .ok issues =>
      let localIssues := issues.map createSearchIndex
      ⟨.ok localIssues, s1.set cacheKey (JsVal.varr localIssues) now (some (isoTime now)),
        false⟩
    | .error e =>
      if isValidCacheVal cached then ⟨.ok (cachedList cached), s1, false⟩
      else ⟨.error (wrapFetchError e), s1, false⟩

/-- The identity merge inside `updateIssuesInBackground`
(linearService.ts:351-364): keep every cached issue whose id is not among the
updated ids, then append the (re-indexed) updated issues. -/
def mergeIssues (cachedIssues updatedIssues : List Issue) : List Issue :=
  let updatedIds := updatedIssues.map Issue.id
  let filteredCache := cachedIssues.filter (fun i => !(updatedIds.contains i.id))
  let processedIssues := updatedIssues.map createSearchIndex
  filteredCache ++ processedIssues

/-- `updateIssue` (linearService.ts:667-691) as a function of the API call's
outcome: on success, delete the key `issue:` + id and invalidate every key
starting with `issues:`; on failure, rethrow and leave the cache untouched.
`updateIssueState` (linearService.ts:716-732) performs the same invalidation. -/
def updateIssue (s : CacheService) (issueId : String)
    (apiResult : Except JsError Unit) : Except JsError Unit × CacheService :=
  match apiResult with
  | .ok r => (.ok r, (s.delete ("issue:" ++ issueId)).invalidateStartingWith "issues:")
  | .error e => (.error e, s)

/-- `FilterCriteria` (linearService.ts:26-39). Optional arrays are modelled as
lists, where `[]` stands for both an absent and an empty array (the code
guards each with `?.length`); optional scalars as `Option`. Dates are their
ISO strings. `assignedToMe`, `includeCompleted` and `dueDate` inside the
criteria are never read by the translation in `getIssues`. -/
structure FilterCriteria where
  status : List String := []
  priority : List Int := []
  project : List String := []
  labels : List String := []
  query : Option String := none
  updatedAfter : Option String := none
  deriving DecidableEq, Repr

/-- The `state` sub-object of the remote filter (linearService.ts:159-173). -/
structure StateFilter where
  typeNin : Option (List String) := none
  idIn : Option (List String) := none
  deriving DecidableEq, Repr

/-- The remote filter object built by `getIssues` (linearService.ts:150-203):
each field is `none` when the corresponding predicate is absent. -/
structure IssuesFilter where
  assigneeIdEq : Option String := none
  state : Option StateFilter := none
  priorityIn : Option (List Int) := none
  projectIdIn : Option (List String) := none
  labelsSomeIdIn : Option (List String) := none
  updatedAtGt : Option String := none
  queryOrContains : Option String := none
  deriving DecidableEq, Repr

/-- The filter construction of `getIssues` (linearService.ts:150-203):
always scope to the current user's id; exclude the `completed`/`canceled`
state types unless `includeCompleted`; then apply each populated criteria
field, the `status` ids being spread into the existing `state` object. -/
def buildIssuesFilter (meId : String) (includeCompleted : Bool)
    (af : FilterCriteria) : IssuesFilter :=
  let f1 : IssuesFilter := { assigneeIdEq := some meId }
  let f2 := if !includeCompleted then
      { f1 with state := some { typeNin := some ["completed", "canceled"] } }
    else f1
  let f3 := if 0 < af.status.length then
      { f2 with state := some { typeNin := ((f2.state).getD {}).typeNin,
                                idIn := some af.status } }
    else f2
  let f4 := if 0 < af.priority.length then { f3 with priorityIn := some af.priority } else f3
  let f5 := if 0 < af.project.length then { f4 with projectIdIn := some af.project } else f4
  let f6 := if 0 < af.labels.length then { f5 with labelsSomeIdIn := some af.labels } else f5
  let f7 := match af.updatedAfter with
    | some d => { f6 with updatedAtGt := some d }
    | none => f6
  match af.query with
  | some q => { f7 with queryOrContains := some q }
  | none => f7

/-- The attributes of an issue that the remote filter inspects. -/
structure IssueAttrs where
  assigneeId : Option String
  stateType : String
  stateId : String
  priority : Int
  projectId : String
  labelIds : List String
  updatedAt : String
  title : String
  description : String
  deriving DecidableEq, Repr

/-- The satisfaction semantics of the remote filter expression: every present
field must hold, an absent field constrains nothing. -/
def matchesFilter (f : IssuesFilter) (a : IssueAttrs) : Bool :=
  (match f.assigneeIdEq with
   | some i => a.assigneeId == some i
   | none => true) &&
  (match f.state with
   | some st =>
     (match st.typeNin with
      | some ts => !(ts.contains a.stateType)
      | none => true) &&
     (match st.idIn with
      | some ids => ids.contains a.stateId
      | none => true)
   | none => true) &&
  (match f.priorityIn with
   | some ps => ps.contains a.priority
   | none => true) &&
  (match f.projectIdIn with
   | some ps => ps.contains a.projectId
   | none => true) &&
  (match f.labelsSomeIdIn with
   | some ls => a.labelIds.any (fun l => ls.contains l)
   | none => true) &&
  (match f.updatedAtGt with
   | some d => decide (d < a.updatedAt)
   | none => true) &&
  (match f.queryOrContains with
   | some q => hasSub q.toList a.title.toList || hasSub q.toList a.description.toList
   | none => true)

/-! Helper lemmas about association-list lookups. -/

theorem lookup_eq_none_of_not_mem (l : List (String × CacheItem)) (k : String)
    (h : k ∉ l.map Prod.fst) : l.lookup k = none := by
  induction l with
  | nil => rfl
  | cons e rest ih =>
    obtain ⟨a, b⟩ := e
    simp only [List.map_cons, List.mem_cons, not_or] at h
    have ha : (k == a) = false := beq_eq_false_iff_ne.mpr h.1
    simp [List.lookup, ha, ih h.2]

theorem lookup_alSet_self (l : List (String × CacheItem)) (k : String) (v : CacheItem) :
    (alSet k v l).lookup k = some v := by
  induction l with
  | nil => simp [alSet, List.lookup]
  | cons e rest ih =>
    obtain ⟨a, b⟩ := e
    by_cases hak : a = k
    · simp [alSet, hak, List.lookup]
    · have ha : (k == a) = false := beq_eq_false_iff_ne.mpr (fun he => hak he.symm)
      simp [alSet, hak, List.lookup, ha, ih]

theorem lookup_alSet_ne (l : List (String × CacheItem)) (k k' : String) (v : CacheItem)
    (h : k' ≠ k) : (alSet k v l).lookup k' = l.lookup k' := by
  induction l with
  | nil =>
    have hk : (k' == k) = false := beq_eq_false_iff_ne.mpr h
    simp [alSet, List.lookup, hk]
  | cons e rest ih =>
    obtain ⟨a, b⟩ := e
    have hk : (k' == k) = false := beq_eq_false_iff_ne.mpr h
    by_cases hak : a = k
    · subst hak
      simp [alSet, List.lookup, hk]
    · by_cases hak' : a = k'
      · subst hak'
        simp [alSet, hak, List.lookup]
      · have ha : (k' == a) = false := beq_eq_false_iff_ne.mpr (fun he => hak' he.symm)
        simp [alSet, hak, List.lookup, ha, ih]

theorem lookup_filter_of_pred_true (l : List (String × CacheItem)) (k : String)
    (p : String → Bool) (hp : p k = true) :
    (l.filter (fun e => p e.1)).lookup k = l.lookup k := by
  induction l with
  | nil => rfl
  | cons e rest ih =>
    obtain ⟨a, b⟩ := e
    by_cases hpa : p a = true
    · simp only [List.filter_cons, hpa, if_true]
      by_cases hak : a = k
      · subst hak
        simp [List.lookup]
      · have ha : (k == a) = false := beq_eq_false_iff_ne.mpr (fun he => hak he.symm)
        simp [List.lookup, ha, ih]
    · have hak : a ≠ k := fun he => hpa (he ▸ hp)
      have ha : (k == a) = false := beq_eq_false_iff_ne.mpr (fun he => hak he.symm)
      simp only [List.filter_cons, Bool.eq_false_iff.mpr hpa]
      simp [List.lookup, ha, ih]

theorem lookup_filter_of_pred_false (l : List (String × CacheItem)) (k : String)
    (p : String → Bool) (hp : p k = false) :
    (l.filter (fun e => p e.1)).lookup k = none := by
  induction l with
  | nil => rfl
  | cons e rest ih =>
    obtain ⟨a, b⟩ := e
    by_cases hpa : p a = true
    · have hak : a ≠ k := fun he => by rw [he, hp] at hpa; exact Bool.false_ne_true hpa
      have ha : (k == a) = false := beq_eq_false_iff_ne.mpr (fun he => hak he.symm)
      simp only [List.filter_cons, hpa, if_true]
      simp [List.lookup, ha, ih]
    · simp only [List.filter_cons, Bool.eq_false_iff.mpr hpa]
      simpa using ih

theorem mem_alSet_keys (l : List (String × CacheItem)) (k k' : String) (v : CacheItem)
    (h : k' ∈ (alSet k v l).map Prod.fst) : k' = k ∨ k' ∈ l.map Prod.fst := by
  induction l with
  | nil => simpa [alSet] using h
  | cons e rest ih =>
    obtain ⟨a, b⟩ := e
    by_cases hak : a = k
    · simp only [alSet, hak, if_true, List.map_cons, List.mem_cons] at h
      rcases h with h | h
      · exact Or.inl h
      · exact Or.inr (by simp [h])
    · simp only [alSet, hak, if_false, List.map_cons, List.mem_cons] at h
      rcases h with h | h
      · exact Or.inr (by simp [h])
      · rcases ih h with h' | h'
        · exact Or.inl h'
        · exact Or.inr (by simp [h'])

theorem alSet_keys_nodup (l : List (String × CacheItem)) (k : String) (v : CacheItem)
    (h : (l.map Prod.fst).Nodup) : ((alSet k v l).map Prod.fst).Nodup := by
  induction l with
  | nil => simp [alSet]
  | cons e rest ih =>
    obtain ⟨a, b⟩ := e
    simp only [List.map_cons, List.nodup_cons] at h
    by_cases hak : a = k
    · subst hak
      simp only [alSet, if_true]
      simp only [List.map_cons, List.nodup_cons]
      exact ⟨h.1, h.2⟩
    · simp only [alSet, hak, if_false, List.map_cons, List.nodup_cons]
      refine ⟨fun hmem => ?_, ih h.2⟩
      rcases mem_alSet_keys rest k a v hmem with h' | h'
      · exact hak h'
      · exact h.1 h'

theorem foldl_alSet_lookup (l : List (String × CacheItem)) (k : String) :
    ∀ init : List (String × CacheItem), (l.map Prod.fst).Nodup →
      (l.foldl (fun m e => alSet e.1 e.2 m) init).lookup k =
        match l.lookup k with
        | some v => some v
        | none => init.lookup k := by
  induction l with
  | nil => intro init _; rfl
  | cons e rest ih =>
    intro init hnd
    obtain ⟨a, b⟩ := e
    simp only [List.map_cons, List.nodup_cons] at hnd
    simp only [List.foldl_cons]
    rw [ih (alSet a b init) hnd.2]
    by_cases hak : a = k
    · subst hak
      have hrest : rest.lookup a = none :=
        lookup_eq_none_of_not_mem rest a hnd.1
      simp [List.lookup, hrest, lookup_alSet_self]
    · have ha : (k == a) = false := beq_eq_false_iff_ne.mpr (fun he => hak he.symm)
      rw [lookup_alSet_ne init a k b (fun he => hak he.symm)]
      simp [List.lookup, ha]

theorem foldl_alSet_lookup_of_not_mem (l : List (String × CacheItem)) (k : String)
    (init : List (String × CacheItem)) (h : k ∉ l.map Prod.fst) :
    (l.foldl (fun m e => alSet e.1 e.2 m) init).lookup k = init.lookup k := by
  induction l generalizing init with
  | nil => rfl
  | cons e rest ih =>
    obtain ⟨a, b⟩ := e
    simp only [List.map_cons, List.mem_cons, not_or] at h
    simp only [List.foldl_cons]
    rw [ih (alSet a b init) h.2, lookup_alSet_ne init a k b (fun he => h.1 he)]

/-! Claim theorems. -/

/-- C2. TTL expiry: for every key and every ttl greater than 0,
`CacheService.get key ttl` returns the stored value when `now - storedAt ≤ ttl`
and returns absent while evicting the entry when `ttl < now - storedAt`; a ttl
of 0 or less never expires by time; and a `set` immediately followed by `get`
with `ttl > 0` returns the just-stored value. -/
theorem C2_ttl_expiry :
    (∀ (s : CacheService) (k : String) (it : CacheItem) (ttl now : Int),
      s.cache.lookup k = some it →
      (0 < ttl → now - it.timestamp ≤ ttl → s.get k ttl now = (some it.data, s)) ∧
      (0 < ttl → ttl < now - it.timestamp →
        (s.get k ttl now).1 = none ∧ ((s.get k ttl now).2).cache.lookup k = none) ∧
      (ttl ≤ 0 → s.get k ttl now = (some it.data, s))) ∧
    (∀ (s : CacheService) (k : String) (v : JsVal) (lu : Option String) (ttl now : Int),
      0 < ttl → ((s.set k v now lu).get k ttl now).1 = some v) := by
  constructor
  · intro s k it ttl now hit
    refine ⟨fun h1 h2 => ?_, fun h1 h2 => ?_, fun h1 => ?_⟩
    · simp only [CacheService.get, hit]
      rw [if_neg (by omega)]
    · simp only [CacheService.get, hit]
      rw [if_pos ⟨h1, h2⟩]
      exact ⟨rfl, lookup_filter_of_pred_false s.cache k (fun x => !(x == k)) (by simp)⟩
    · simp only [CacheService.get, hit]
      rw [if_neg (by omega)]
  · intro s k v lu ttl now h1
    have hcache : (s.set k v now lu).cache = alSet k ⟨v, now, lu⟩ s.cache := by
      cases hsp : shouldPersist k
      · simp [CacheService.set, hsp]
      · simp [CacheService.set, CacheService.persistCache, hsp]
    simp only [CacheService.get, hcache, lookup_alSet_self]
    rw [if_neg (show ¬(0 < ttl ∧ ttl < now - now) by omega)]

/-- A sample cached entry used by the concrete witnesses. -/
def sampleItem : CacheItem := ⟨JsVal.vother "v", 0, none⟩

/-- A one-entry cache used by the concrete witnesses. -/
def sampleCache : CacheService := ⟨[("k", sampleItem)], none⟩

/-- Witness for C2 on a concrete cache: a fresh read hits, an expired read
misses, and set-then-get returns the just-stored value. -/
theorem C2_ttl_expiry_witness :
    CacheService.get sampleCache "k" 100 50 = (some (JsVal.vother "v"), sampleCache) ∧
    (CacheService.get sampleCache "k" 100 200).1 = none ∧
    ((CacheService.set sampleCache "j" (JsVal.vother "w") 7 none).get "j" 100 7).1 =
      some (JsVal.vother "w") := by
  refine ⟨?_, ?_, ?_⟩
  · exact (C2_ttl_expiry.1 sampleCache "k" sampleItem 100 50 rfl).1 (by decide) (by decide)
  · exact ((C2_ttl_expiry.1 sampleCache "k" sampleItem 100 200 rfl).2.1
      (by decide) (by decide)).1
  · exact C2_ttl_expiry.2 sampleCache "j" (JsVal.vother "w") none 100 7 (by decide)

/-- C6. Round-trip persistence: a `set` on a key with a persisted prefix
(issues, teams, workflowStates, projects), followed by a simulated restart (a
fresh `CacheService` constructed over the same durable storage), yields a
`get` returning the stored value subject to TTL; a key outside the persisted
prefixes is not restored after a restart. The storage invariant `hinv` (every
persisted snapshot holds only persisted-prefix keys) is established by
`persistCache` itself and holds for the initial empty storage. -/
theorem C6_round_trip (s : CacheService) (k1 k2 : String) (v1 v2 : JsVal)
    (now ttl now2 : Int)
    (hnd : (s.cache.map Prod.fst).Nodup)
    (hinv : ∀ l, s.storage = some l → ∀ e ∈ l, shouldPersist e.1 = true)
    (hk1 : shouldPersist k1 = true)
    (hk2 : shouldPersist k2 = false)
    (hfresh : ttl ≤ 0 ∨ now2 - now ≤ ttl) :
    ((CacheService.fresh ((s.set k1 v1 now none).storage)).get k1 ttl now2).1 = some v1 ∧
    ((CacheService.fresh ((s.set k2 v2 now none).storage)).get k2 ttl now2).1 = none := by
  constructor
  · have hst : (s.set k1 v1 now none).storage =
        some ((alSet k1 ⟨v1, now, none⟩ s.cache).filter (fun e => shouldPersist e.1)) := by
      simp [CacheService.set, hk1, CacheService.persistCache]
    rw [hst]
    have hlnd : (((alSet k1 ⟨v1, now, none⟩ s.cache).filter
        (fun e => shouldPersist e.1)).map Prod.fst).Nodup := by
      have h1 : ((alSet k1 ⟨v1, now, none⟩ s.cache).map Prod.fst).Nodup :=
        alSet_keys_nodup s.cache k1 ⟨v1, now, none⟩ hnd
      exact h1.sublist ((List.filter_sublist _).map Prod.fst)
    have hlook : ((alSet k1 ⟨v1, now, none⟩ s.cache).filter
        (fun e => shouldPersist e.1)).lookup k1 = some ⟨v1, now, none⟩ := by
      rw [lookup_filter_of_pred_true _ k1 shouldPersist hk1]
      exact lookup_alSet_self s.cache k1 ⟨v1, now, none⟩
    have hfold : ((CacheService.fresh (some ((alSet k1 ⟨v1, now, none⟩ s.cache).filter
        (fun e => shouldPersist e.1)))).cache).lookup k1 = some ⟨v1, now, none⟩ := by
      unfold CacheService.fresh
      simp only [Option.getD_some]
      rw [foldl_alSet_lookup _ k1 [] hlnd, hlook]
    simp only [CacheService.get, hfold]
    rw [if_neg (show ¬(0 < ttl ∧ ttl < now2 - now) by rcases hfresh with h | h <;> omega)]
  · have hst : (s.set k2 v2 now none).storage = s.storage := by
      simp [CacheService.set, hk2]
    rw [hst]
    rcases hs : s.storage with _ | l
    · simp [CacheService.fresh, CacheService.get, List.lookup]
    · have hmem : k2 ∉ l.map Prod.fst := by
        intro hm
        rcases List.mem_map.mp hm with ⟨e, he, hek⟩
        have h2 : shouldPersist k2 = true := hek ▸ hinv l hs e he
        rw [hk2] at h2
        exact Bool.false_ne_true h2
      have hfold : ((CacheService.fresh (some l)).cache).lookup k2 = none := by
        unfold CacheService.fresh
        simp only [Option.getD_some]
        rw [foldl_alSet_lookup_of_not_mem l k2 [] hmem]
        rfl
      simp [CacheService.get, hfold]

/-- Witness for C6 on a concrete empty cache: a persisted-prefix key survives
the restart, a detail-level key does not. -/
theorem C6_round_trip_witness :
    ((CacheService.fresh ((CacheService.set ⟨[], none⟩ "issues:W" (JsVal.vother "a")
      0 none).storage)).get "issues:W" 100 50).1 = some (JsVal.vother "a") ∧
    ((CacheService.fresh ((CacheService.set ⟨[], none⟩ "issueDetail:W" (JsVal.vother "b")
      0 none).storage)).get "issueDetail:W" 100 50).1 = none := by
  exact C6_round_trip ⟨[], none⟩ "issues:W" "issueDetail:W" (JsVal.vother "a")
    (JsVal.vother "b") 0 100 50 (by simp)
    (by intro l hl; exact absurd hl (by simp))
    (by decide) (by decide) (Or.inr (by decide))

/-- C4. Delta merge identity: for collections of pairwise-distinct
identities, the merge of `updateIssuesInBackground` contains exactly the
(re-indexed) delta items plus the cached items whose id is absent from the
delta, with no duplicate identities; a cached item sharing an id with a delta
item is dropped regardless of any timestamps on the items. -/
theorem C4_delta_merge (cachedC deltaD : List Issue)
    (hC : (cachedC.map Issue.id).Nodup) (hD : (deltaD.map Issue.id).Nodup) :
    ((mergeIssues cachedC deltaD).map Issue.id).Nodup ∧
    (∀ x, x ∈ mergeIssues cachedC deltaD ↔
      (x ∈ deltaD.map createSearchIndex ∨
       (x ∈ cachedC ∧ x.id ∉ deltaD.map Issue.id))) := by
  have hproc : (deltaD.map createSearchIndex).map Issue.id = deltaD.map Issue.id := by
    rw [List.map_map]
    exact List.map_congr_left (fun a _ => rfl)
  constructor
  · simp only [mergeIssues, List.map_append]
    refine List.Nodup.append ?_ (hproc ▸ hD) ?_
    · exact hC.sublist ((List.filter_sublist _).map _)
    · intro a ha hb
      rw [hproc] at hb
      rcases List.mem_map.mp ha with ⟨i, hi, rfl⟩
      have hmemf := (List.mem_filter.mp hi).2
      simp only [Bool.not_eq_true'] at hmemf
      exact absurd hb (by simpa using hmemf)
  · intro x
    simp only [mergeIssues, List.mem_append, List.mem_filter]
    constructor
    · rintro (⟨hx, hc⟩ | hx)
      · refine Or.inr ⟨hx, ?_⟩
        simp only [Bool.not_eq_true'] at hc
        simpa using hc
      · exact Or.inl hx
    · rintro (hx | ⟨hx, hid⟩)
      · exact Or.inr hx
      · refine Or.inl ⟨hx, ?_⟩
        simp only [Bool.not_eq_true']
        simpa using hid

/-- A cached issue used by the C4 witness. -/
def issueA : Issue := ⟨"a", "A", "", "L-1", "", "", [], "Todo", none⟩

/-- A cached issue whose id also appears in the delta. -/
def issueB : Issue := ⟨"b", "B", "", "L-2", "", "", [], "Todo", none⟩

/-- The delta version of `issueB`: same id, different content. -/
def issueB2 : Issue := ⟨"b", "B new", "", "L-2", "", "", [], "Done", none⟩

/-- A delta issue with a fresh id. -/
def issueC2 : Issue := ⟨"c", "C", "", "L-3", "", "", [], "Todo", none⟩

/-- Witness for C4 on concrete collections sharing the id `b`: the merged ids
are duplicate-free, the delta version of `b` is in the merge, and the cached
version of `b` is not. -/
theorem C4_delta_merge_witness :
    ((mergeIssues [issueA, issueB] [issueB2, issueC2]).map Issue.id).Nodup ∧
    createSearchIndex issueB2 ∈ mergeIssues [issueA, issueB] [issueB2, issueC2] ∧
    issueB ∉ mergeIssues [issueA, issueB] [issueB2, issueC2] := by
  have h := C4_delta_merge [issueA, issueB] [issueB2, issueC2] (by decide) (by decide)
  refine ⟨h.1, ?_, ?_⟩
  · exact (h.2 (createSearchIndex issueB2)).mpr
      (Or.inl (List.mem_map_of_mem createSearchIndex (by simp)))
  · intro hmem
    rcases (h.2 issueB).mp hmem with hx | ⟨_, hid⟩
    · simp only [List.map_cons, List.map_nil, List.mem_cons, List.not_mem_nil,
        or_false] at hx
      rcases hx with hx | hx
      · exact Option.noConfusion (congrArg Issue.searchText hx)
      · exact Option.noConfusion (congrArg Issue.searchText hx)
    · exact hid (by decide)

/-- One unfolding step of the retry loop at the initial fuel of 3. -/
theorem withRetryFrom_three (op : Nat → Except JsError α) (le : JsError) (i : Nat) :
    withRetryFrom op le i 3 = (match op i with
      | .ok v => ⟨.ok v, 1, []⟩
      | .error e =>
        if isRateLimitError e then
          ⟨(withRetryFrom op e (i + 1) 2).result, (withRetryFrom op e (i + 1) 2).calls + 1,
            RETRY_DELAY * 2 ^ i :: (withRetryFrom op e (i + 1) 2).waits⟩
        else ⟨.error e, 1, []⟩) := rfl

/-- Any run of the retry loop with at least one remaining iteration calls the
operation at least once. -/
theorem withRetryFrom_calls_pos (op : Nat → Except JsError α) (le : JsError)
    (i r : Nat) (hr : 0 < r) : 0 < (withRetryFrom op le i r).calls := by
  cases r with
  | zero => exact absurd hr (by omega)
  | succ r =>
    simp only [withRetryFrom]
    cases hop : op i with
    | ok v => simp
    | error e =>
      cases hrl : isRateLimitError e
      · simp [hrl]
      · simp [hrl]

/-- C3. Retry bound: an operation that raises a rate-limit error on every
attempt is called exactly 3 times, with sleeps of `1000 * 2 ^ attempt`
milliseconds after each failing attempt (so the delays between consecutive
calls are 1000 and 2000 ms, with a final vestigial 4000 ms sleep before the
failure is rethrown), and `withRetry` then fails with the last error; an
operation that fails on attempt 1 with a non-rate-limit error is called
exactly once and the error propagates with no sleep. -/
theorem C3_retry_bound :
    (∀ (α : Type) (op : Nat → Except JsError α) (e : Nat → JsError),
      (∀ i, i < RETRY_COUNT → op i = .error (e i) ∧ isRateLimitError (e i) = true) →
      withRetry op = ⟨.error (e 2), 3, [1000, 2000, 4000]⟩) ∧
    (∀ (α : Type) (op : Nat → Except JsError α) (e0 : JsError),
      op 0 = .error e0 → isRateLimitError e0 = false →
      withRetry op = ⟨.error e0, 1, []⟩) := by
  constructor
  · intro α op e h
    obtain ⟨h0, r0⟩ := h 0 (by decide)
    obtain ⟨h1, r1⟩ := h 1 (by decide)
    obtain ⟨h2, r2⟩ := h 2 (by decide)
    simp [withRetry, RETRY_COUNT, withRetryFrom, h0, r0, h1, r1, h2, r2, RETRY_DELAY]
  · intro α op e0 h0 hr
    simp [withRetry, RETRY_COUNT, withRetryFrom, h0, hr]

/-- A rate-limit error as raised by the SDK. -/
def rlErr : JsError := ⟨true, "rate limit exceeded"⟩

/-- A non-rate-limit remote failure. -/
def netError : JsError := ⟨false, "network down"⟩

/-- An operation failing with the rate-limit error on every attempt. -/
def alwaysRateLimited : Nat → Except JsError Unit := fun _ => .error rlErr

/-- An operation failing at once with a non-rate-limit error. -/
def failsOther : Nat → Except JsError Unit := fun _ => .error netError

/-- Witness for C3 on the two concrete operations. -/
theorem C3_retry_bound_witness :
    withRetry alwaysRateLimited = ⟨.error rlErr, 3, [1000, 2000, 4000]⟩ ∧
    withRetry failsOther = ⟨.error netError, 1, []⟩ := by
  constructor
  · exact C3_retry_bound.1 Unit alwaysRateLimited (fun _ => rlErr)
      (fun i _ => ⟨rfl, show isRateLimitError rlErr = true by decide⟩)
  · exact C3_retry_bound.2 Unit failsOther netError rfl (by decide)

/-- C9. Exhausted-retry distinctness: a failure of `withRetry` after a single
call always carries a non-rate-limit-classified error, while the failure
after rate-limit errors on all 3 attempts carries a rate-limit-classified
error, so callers can tell exhausted-retry apart from an immediate
first-attempt failure by the propagated error's classification. -/
theorem C9_exhausted_distinct :
    (∀ (α : Type) (op : Nat → Except JsError α) (e : JsError),
      (withRetry op).calls = 1 → (withRetry op).result = .error e →
      isRateLimitError e = false) ∧
    (∀ (α : Type) (op : Nat → Except JsError α),
      (∀ i, i < RETRY_COUNT → ∃ er, op i = .error er ∧ isRateLimitError er = true) →
      ∃ er, (withRetry op).result = .error er ∧ isRateLimitError er = true) := by
  constructor
  · intro α op e hcalls hres
    unfold withRetry RETRY_COUNT at hcalls hres
    cases hop : op 0 with
    | ok v =>
      simp only [withRetryFrom_three, hop] at hres
      exact absurd hres (by simp)
    | error e0 =>
      cases hrl : isRateLimitError e0 with
      | false =>
        simp only [withRetryFrom_three, hop, hrl, Bool.false_eq_true, if_false] at hres
        simp only [Except.error.injEq] at hres
        rw [← hres]
        exact hrl
      | true =>
        simp only [withRetryFrom_three, hop, hrl, if_true, Nat.zero_add] at hcalls
        have hp := withRetryFrom_calls_pos op e0 1 2 (by decide)
        omega
  · intro α op h
    obtain ⟨er0, h0, r0⟩ := h 0 (by decide)
    obtain ⟨er1, h1, r1⟩ := h 1 (by decide)
    obtain ⟨er2, h2, r2⟩ := h 2 (by decide)
    refine ⟨er2, ?_, r2⟩
    simp [withRetry, RETRY_COUNT, withRetryFrom, h0, r0, h1, r1, h2, r2]

/-- Witness for C9: the immediate failure carries a non-rate-limit error and
the exhausted retry carries a rate-limit-classified one. -/
theorem C9_exhausted_distinct_witness :
    isRateLimitError netError = false ∧
    (∃ er, (withRetry alwaysRateLimited).result = .error er ∧
      isRateLimitError er = true) := by
  constructor
  · exact C9_exhausted_distinct.1 Unit failsOther netError rfl rfl
  · exact C9_exhausted_distinct.2 Unit alwaysRateLimited
      (fun i _ => ⟨rlErr, rfl, show isRateLimitError rlErr = true by decide⟩)

/-- A cache whose only issues entry is stale: stored at time 0, read far past
the 5-minute default TTL. -/
def staleState : CacheService := ⟨[("issues:K", ⟨JsVal.varr [issueA], 0, none⟩)], none⟩

/-- C1 counterexample: a cached (TTL-expired) entry exists for the key and the
refetch fails with a non-rate-limit error, yet `getIssues` propagates the
wrapped error instead of returning the stale cached value — the read evicted
the expired entry before the fallback check could see it. -/
theorem C1_counterexample :
    staleState.cache.lookup "issues:K" = some ⟨JsVal.varr [issueA], 0, none⟩ ∧
    isRateLimitError netError = false ∧
    (getIssues staleState "issues:K" 10000000 (.error netError)).result =
      .error (wrapFetchError netError) := by
  refine ⟨rfl, by decide, rfl⟩

/-- C1 amended: on the fetch path of `getIssues` (reachable only when the
cache read yielded no valid value — the key was absent, TTL-expired and hence
evicted by the read itself, a non-array, or an empty array), a fetch failure
always propagates as the wrapped error; the stale-fallback branch at
linearService.ts:242 is unreachable because a valid cache hit returns before
any fetch. -/
theorem C1_stale_fallback (s : CacheService) (key : String) (now : Int) (e : JsError)
    (h : isValidCacheVal (s.get key DEFAULT_TTL now).1 = false) :
    getIssues s key now (.error e) =
      ⟨.error (wrapFetchError e), (s.get key DEFAULT_TTL now).2, false⟩ := by
  simp only [getIssues, h, Bool.false_eq_true, if_false]

/-- Witness for the amended C1 at a concrete empty cache. -/
theorem C1_stale_fallback_witness :
    getIssues ⟨[], none⟩ "issues:K" 0 (.error netError) =
      ⟨.error (wrapFetchError netError), ⟨[], none⟩, false⟩ :=
  C1_stale_fallback ⟨[], none⟩ "issues:K" 0 netError rfl

/-- C10. Implicit — an empty cached issue array is a cache miss: when the
cache read yields `some (varr [])`, `getIssues` schedules no background delta
refresh, a successful fetch replaces the cache and is returned, and a fetch
failure propagates as the wrapped error rather than returning the cached
empty list. -/
theorem C10_empty_cached_is_miss (s : CacheService) (key : String) (now : Int)
    (fetched : Except JsError (List Issue))
    (h : (s.get key DEFAULT_TTL now).1 = some (JsVal.varr [])) :
    (getIssues s key now fetched).backgroundScheduled = false ∧
    (∀ l, fetched = .ok l →
      (getIssues s key now fetched).result = .ok (l.map createSearchIndex)) ∧
    (∀ e, fetched = .error e →
      (getIssues s key now fetched).result = .error (wrapFetchError e)) := by
  have hv : isValidCacheVal (s.get key DEFAULT_TTL now).1 = false := by
    rw [h]; rfl
  refine ⟨?_, ?_, ?_⟩
  · cases fetched <;> simp [getIssues, hv]
  · intro l hl
    subst hl
    simp [getIssues, hv]
  · intro e he
    subst he
    simp [getIssues, hv]

/-- A cache holding a fresh (unexpired) empty issue array. -/
def emptyArrState : CacheService := ⟨[("issues:E", ⟨JsVal.varr [], 5, none⟩)], none⟩

/-- Witness for C10 on a concrete fresh empty-array entry: no background
refresh, and the fetch error propagates. -/
theorem C10_empty_cached_is_miss_witness :
    (getIssues emptyArrState "issues:E" 5 (.error netError)).backgroundScheduled = false ∧
    (getIssues emptyArrState "issues:E" 5 (.error netError)).result =
      .error (wrapFetchError netError) := by
  have h := C10_empty_cached_is_miss emptyArrState "issues:E" 5 (.error netError) rfl
  exact ⟨h.1, h.2.2 netError rfl⟩

/-- The single-issue-detail entry cached by `getIssueDetails`. -/
def detailItem : CacheItem := ⟨JsVal.vother "detail", 0, none⟩

/-- A populated cache covering every resource family, as it stands when
`updateIssue` is called. -/
def mutState : CacheService := ⟨[
  ("issueDetail:ISSUE-1", detailItem),
  ("issues:A", ⟨JsVal.varr [issueA], 0, none⟩),
  ("issues:B", ⟨JsVal.varr [], 0, none⟩),
  ("teams", ⟨JsVal.vother "teams", 0, none⟩),
  ("projects", ⟨JsVal.vother "projects", 0, none⟩),
  ("labels", ⟨JsVal.vother "labels", 0, none⟩),
  ("comments:ISSUE-1", ⟨JsVal.vother "comments", 0, none⟩),
  ("workflowStates:T1", ⟨JsVal.vother "ws", 0, none⟩)], none⟩

/-- C5. Evaluation at the failing input: after a successful
`updateIssue "ISSUE-1"`, every `issues:` key is removed and the other resource
families are untouched, but the single-issue-detail entry
`issueDetail:ISSUE-1` is still cached — the code deletes the key
`issue:ISSUE-1`, which no code path ever writes; and a failed mutation leaves
the cache entirely unchanged while the error propagates. -/
theorem C5_mutation_divergence :
    ((updateIssue mutState "ISSUE-1" (.ok ())).2).cache.lookup
      (issueDetailKey "ISSUE-1") = some detailItem ∧
    ((updateIssue mutState "ISSUE-1" (.ok ())).2).cache.lookup "issues:A" = none ∧
    ((updateIssue mutState "ISSUE-1" (.ok ())).2).cache.lookup "issues:B" = none ∧
    ((updateIssue mutState "ISSUE-1" (.ok ())).2).cache.lookup "teams" =
      some ⟨JsVal.vother "teams", 0, none⟩ ∧
    ((updateIssue mutState "ISSUE-1" (.ok ())).2).cache.lookup "projects" =
      some ⟨JsVal.vother "projects", 0, none⟩ ∧
    ((updateIssue mutState "ISSUE-1" (.ok ())).2).cache.lookup "labels" =
      some ⟨JsVal.vother "labels", 0, none⟩ ∧
    ((updateIssue mutState "ISSUE-1" (.ok ())).2).cache.lookup "comments:ISSUE-1" =
      some ⟨JsVal.vother "comments", 0, none⟩ ∧
    ((updateIssue mutState "ISSUE-1" (.ok ())).2).cache.lookup "workflowStates:T1" =
      some ⟨JsVal.vother "ws", 0, none⟩ ∧
    updateIssue mutState "ISSUE-1" (.error netError) = (.error netError, mutState) := by
  refine ⟨rfl, rfl, rfl, rfl, rfl, rfl, rfl, rfl, rfl⟩

/-- C7 counterexample: even with `includeCompleted = true` and wholly default
criteria, the built remote filter is not the empty expression — the
assignee-equals-current-user predicate is always added. -/
theorem C7_counterexample :
    (buildIssuesFilter "me" true {}).assigneeIdEq = some "me" ∧
    buildIssuesFilter "me" true {} ≠ ({} : IssuesFilter) := by
  constructor
  · rfl
  · intro h
    exact Option.noConfusion (congrArg IssuesFilter.assigneeIdEq h)

/-- An issue assigned to the current user in a non-terminal state, matched by
the default filter. -/
def sampleAttrs (meId : String) : IssueAttrs :=
  ⟨some meId, "started", "s1", 1, "p1", [], "z", "t", "d"⟩

/-- C7 amended: default criteria translate to exactly the always-present
assignee-equals-current-user predicate plus — iff `includeCompleted` is
false — the exclusion of the `completed` and `canceled` state types; nothing
else is added, and the resulting expression matches a non-terminal issue
assigned to the current user (it never matches nothing). -/
theorem C7_default_translation (meId : String) (ic : Bool) :
    buildIssuesFilter meId ic {} =
      { assigneeIdEq := some meId,
        state := if ic then none
          else some { typeNin := some ["completed", "canceled"], idIn := none } } ∧
    matchesFilter (buildIssuesFilter meId ic {}) (sampleAttrs meId) = true := by
  cases ic <;> constructor <;>
    simp [buildIssuesFilter, matchesFilter, sampleAttrs]

/-- A cache in which `getProject` has legitimately stored `null` (a project
lookup that resolved to not-found, cacheService key `project:` + id). -/
def nullState : CacheService := ⟨[("project:p1", ⟨JsVal.vnull, 0, none⟩)], none⟩

/-- C8 counterexample: the JS-observable result of `get` on a fresh,
legitimately cached `null` equals its result on a cache with no entry at all —
the absent sentinel is the same `null` value, hence not distinguishable. -/
theorem C8_counterexample :
    nullState.cache.lookup "project:p1" = some ⟨JsVal.vnull, 0, none⟩ ∧
    CacheService.getJs nullState "project:p1" DEFAULT_TTL 0 =
      CacheService.getJs ⟨[], none⟩ "project:p1" DEFAULT_TTL 0 := ⟨rfl, rfl⟩

/-- C8 amended: `get` returns `null` on a missing key, a legitimately cached
`null` reads back as that same `null` (indistinguishable from absence), while
a cached empty array reads back as a non-null value (distinguishable); no
`CacheService` operation throws — every operation is a total function. -/
theorem C8_null_indistinguishable (s : CacheService) (k : String) (it : CacheItem)
    (ttl now : Int) (hit : s.cache.lookup k = some it)
    (hf : ¬(0 < ttl ∧ ttl < now - it.timestamp)) :
    CacheService.getJs ⟨[], s.storage⟩ k ttl now = JsVal.vnull ∧
    (it.data = JsVal.vnull → CacheService.getJs s k ttl now = JsVal.vnull) ∧
    (it.data = JsVal.varr [] → CacheService.getJs s k ttl now ≠ JsVal.vnull) := by
  have hread : s.get k ttl now = (some it.data, s) := by
    simp only [CacheService.get, hit]
    rw [if_neg hf]
  refine ⟨?_, ?_, ?_⟩
  · simp [CacheService.getJs, CacheService.get, List.lookup]
  · intro hd
    simp [CacheService.getJs, hread, hd]
  · intro hd hcon
    simp [CacheService.getJs, hread, hd] at hcon

/-- Witness for the amended C8 on the concrete `null`-caching state. -/
theorem C8_null_indistinguishable_witness :
    CacheService.getJs ⟨[], none⟩ "project:p1" DEFAULT_TTL 0 = JsVal.vnull ∧
    CacheService.getJs nullState "project:p1" DEFAULT_TTL 0 = JsVal.vnull := by
  have h := C8_null_indistinguishable nullState "project:p1" ⟨JsVal.vnull, 0, none⟩
    DEFAULT_TTL 0 rfl (by decide)
  exact ⟨h.1, h.2.1 rfl⟩

end LinearExt
